import Mathlib

/-!
Verification of the treeherder job handler (event-to-report translation and
batching subsystem).  The definitions below are a shallow embedding of the
JavaScript source: `jobFromTask` (the record normalizer with its Joi schema),
`stateFromRun` / `resultFromRun` (the lifecycle state machine), the per-event
handlers (`handleTaskPending`, `handleTaskRerun`, `handleTaskRunning`,
`handleTaskException`, `handleTaskFailed`, `handleTaskCompleted`), the
per-project batching engine (`addPush`, `tryPush`, `check`) and the event
dispatcher (`handleTaskEvent`).

JavaScript objects become structures with `Option` fields for possibly-absent
keys; JS truthiness on strings is `s != ""` on present values; dates are
modelled as Unix epoch milliseconds (`Int`), matching the `timestamp` helper
which floors to seconds; fallible code returns `Except String`.  External
collaborators (the slugid decoder, the queue URL builder, the scheduler
inspection API, the route parser and the task fetcher) are parameters of the
functions that invoke them, mirroring how the source calls out to imported
clients.
-/

set_option maxHeartbeats 1000000

namespace MozillaTaskcluster

/-- Platform sub-object of the `task.extra.treeherder` configuration, as it
arrives from the task (before validation).  `os` is the key that the schema
renames to `os_name`. -/
structure THPlatform where
  platform : Option String
  os_name : Option String
  architecture : Option String
  os : Option String
deriving Repr, DecidableEq

/-- Option-collection object (`collection` key of the schema): named boolean
build-configuration axes. -/
structure Collection where
  opt : Option Bool
  debug : Option Bool
  pgo : Option Bool
  cc : Option Bool
  asan : Option Bool
  tsan : Option Bool
  addon : Option Bool
deriving Repr, DecidableEq

/-- A treeherder symbol as supplied by the task: either a string or a number
(chunk identifiers are often numbers; the source coerces them to strings). -/
inductive SymbolVal where
  | str (s : String)
  | num (n : Int)
deriving Repr, DecidableEq

/-- The raw `task.extra.treeherder` object (all keys optional before
defaulting/validation). -/
structure THConfig where
  build : Option THPlatform
  machine : Option THPlatform
  machineId : Option String
  symbol : Option SymbolVal
  groupName : Option String
  groupSymbol : Option String
  tier : Option Int
  productName : Option String
  collection : Option Collection
  revision_hash : Option String
  revision : Option String
  jobKind : Option String
deriving Repr, DecidableEq

/-- The `task.extra` object: only its `treeherder` key is read. -/
structure TaskExtra where
  treeherder : Option THConfig
deriving Repr, DecidableEq

/-- Task metadata: only `name` and `owner` are read. -/
structure TaskMetadata where
  name : String
  owner : String
deriving Repr, DecidableEq

/-- The relevant slice of a task definition. -/
structure Task where
  extra : Option TaskExtra
  workerType : String
  metadata : TaskMetadata
  created : Int
  schedulerId : String
  taskGroupId : Option String
deriving Repr, DecidableEq

/-- One run of a task, as found in `payload.status.runs`. -/
structure Run where
  runId : Nat
  state : String
  reasonCreated : String
  reasonResolved : Option String
  workerId : Option String
  started : Option Int
  resolved : Option Int
deriving Repr, DecidableEq

/-- The `payload.status` object of a queue event. -/
structure TaskStatus where
  taskId : String
  runs : List Run
deriving Repr, DecidableEq

/-- The payload of a queue event: a task status plus the run index the event
is about. -/
structure EventPayload where
  status : TaskStatus
  runId : Nat
deriving Repr, DecidableEq

/-- Convert an epoch-milliseconds date to a Unix-seconds timestamp
(`Math.floor(new Date(date).getTime() / 1000)`). -/
def timestamp (date : Int) : Int :=
  Int.fdiv date 1000

/-- Link to the external task-inspector UI for a given task and run. -/
def inspectorLink (taskId : String) (run : Run) : String :=
  "https://tools.taskcluster.net/task-inspector/#" ++ taskId ++ "/" ++ toString run.runId

/-- Job state derived from a run: `exception` and `failed` map to `completed`,
anything else passes through. -/
def stateFromRun (run : Run) : String :=
  if run.state = "exception" ∨ run.state = "failed" then "completed" else run.state

/-- Job result derived from a run. -/
def resultFromRun (run : Run) : String :=
  if run.state = "completed" then "success"
  else if run.state = "failed" then "testfailed"
  else if run.state = "exception" then
    if run.reasonResolved = some "canceled" then "usercancel" else "exception"
  else "unknown"

/-- One log reference attached to a job record. -/
structure LogRef where
  name : String
  url : String
deriving Repr, DecidableEq

/-- Modelled from the spec: the live-log URL built by the external
taskcluster queue client (`queue.buildUrl(queue.getArtifact, taskId,
run.runId, "public/logs/live_backing.log")`); the client itself is not part
of this repository. -/
def buildLogUrl (taskId : String) (runId : Nat) : String :=
  "https://queue.taskcluster.net/v1/task/" ++ taskId ++ "/runs/" ++ toString runId ++
    "/artifacts/public/logs/live_backing.log"

/-- The single log reference list contributed with completed/failed/rerun
records (the magical `builds-4h` name enables the log viewer). -/
def createLogReferences (taskId : String) (run : Run) : List LogRef :=
  [{ name := "builds-4h", url := buildLogUrl taskId run.runId }]

/-- A platform object after validation: required `platform`, `os_name` and
`architecture` defaulted to `-`. -/
structure ValidPlatform where
  platform : String
  os_name : String
  architecture : String
deriving Repr, DecidableEq

/-- The validated `task.extra.treeherder` configuration (output of the Joi
schema: defaults applied, required fields present). -/
structure ValidConfig where
  build : ValidPlatform
  machine : ValidPlatform
  machineId : Option String
  symbol : String
  groupName : String
  groupSymbol : String
  tier : Int
  productName : Option String
  collection : Option Collection
  revision_hash : Option String
  revision : Option String
  jobKind : Option String
deriving Repr, DecidableEq

/-- One entry of the `job_details` blob of the job-info artifact. -/
structure JobDetail where
  url : String
  value : String
  content_type : String
  title : String
deriving Repr, DecidableEq

/-- The artifact attached to every job record (a link back to the
task-inspector). -/
structure Artifact where
  type : String
  name : String
  job_details : List JobDetail
deriving Repr, DecidableEq

/-- A job record as pushed to treeherder.  `state`, `result` and
`log_references` are absent from the output of `jobFromTask` and added by the
per-event handlers via `Object.assign`. -/
structure Job where
  job_guid : String
  build_system_type : String
  build_platform : ValidPlatform
  machine_platform : ValidPlatform
  machine : Option String
  name : String
  reason : String
  job_symbol : String
  submit_timestamp : Int
  start_timestamp : Option Int
  end_timestamp : Option Int
  who : String
  option_collection : Option Collection
  group_name : Option String
  group_symbol : Option String
  product_name : Option String
  tier : Option Int
  artifacts : List Artifact
  state : Option String
  result : Option String
  log_references : Option (List LogRef)
deriving Repr, DecidableEq

/-- Validate one platform object of the schema: apply the `os` to `os_name`
rename (Joi refuses to rename onto an existing key), require a non-empty
`platform`, default `os_name` and `architecture` to `-`. -/
def validatePlatform (o : Option THPlatform) : Except String ValidPlatform :=
  match o with
  | none => Except.error "platform object is required"
  | some p =>
    match p.os, p.os_name with
    | some _, some _ => Except.error "rename of os is not allowed because os_name exists"
    | osv, osnv =>
      let osn := match osv, osnv with
        | some v, none => some v
        | _, v => v
      match p.platform with
      | none => Except.error "platform is required"
      | some plat =>
        if plat = "" then Except.error "platform is not allowed to be empty"
        else
          match osn with
          | some s =>
            if s = "" then Except.error "os_name is not allowed to be empty"
            else
              match p.architecture with
              | some a =>
                if a = "" then Except.error "architecture is not allowed to be empty"
                else Except.ok { platform := plat, os_name := s, architecture := a }
              | none => Except.ok { platform := plat, os_name := s, architecture := "-" }
          | none =>
            match p.architecture with
            | some a =>
              if a = "" then Except.error "architecture is not allowed to be empty"
              else Except.ok { platform := plat, os_name := "-", architecture := a }
            | none => Except.ok { platform := plat, os_name := "-", architecture := "-" }

/-- Validate an optional string field: absent is fine, an empty string is a
violation. -/
def validOptStr (field : String) (o : Option String) : Except String (Option String) :=
  match o with
  | none => Except.ok none
  | some s =>
    if s = "" then Except.error (field ++ " is not allowed to be empty") else Except.ok (some s)

/-- Validate a string field carrying a schema default: absent yields the
default, an empty string is a violation. -/
def validStrDefault (field dflt : String) (o : Option String) : Except String String :=
  match o with
  | none => Except.ok dflt
  | some s =>
    if s = "" then Except.error (field ++ " is not allowed to be empty") else Except.ok s

/-- Validate the required `symbol` field: it must be present and must already
be a (non-empty) string; `Joi.string()` does not accept numbers, which is why
the source coerces numeric symbols before validating. -/
def validSymbol (o : Option SymbolVal) : Except String String :=
  match o with
  | none => Except.error "symbol is required"
  | some (SymbolVal.num _) => Except.error "symbol must be a string"
  | some (SymbolVal.str s) =>
    if s = "" then Except.error "symbol is not allowed to be empty" else Except.ok s

/-- Validation of the merged configuration against `SCHEMA`: required
build/machine platforms, required string symbol, `groupName` defaulting to
`unknown`, `groupSymbol` defaulting to `?`, `tier` defaulting to `1`;
`revision`, `revision_hash` and `jobKind` allow the empty string and pass
through. -/
def validateTH (c : THConfig) : Except String ValidConfig :=
  match validatePlatform c.build, validatePlatform c.machine,
        validOptStr "machineId" c.machineId, validSymbol c.symbol,
        validStrDefault "groupName" "unknown" c.groupName,
        validStrDefault "groupSymbol" "?" c.groupSymbol,
        validOptStr "productName" c.productName with
  | Except.ok b, Except.ok m, Except.ok mid, Except.ok sym, Except.ok gn, Except.ok gs,
    Except.ok pn =>
    Except.ok
      { build := b, machine := m, machineId := mid, symbol := sym, groupName := gn,
        groupSymbol := gs, tier := c.tier.getD 1, productName := pn,
        collection := c.collection, revision_hash := c.revision_hash,
        revision := c.revision, jobKind := c.jobKind }
  | Except.error e, _, _, _, _, _, _ => Except.error e
  | _, Except.error e, _, _, _, _, _ => Except.error e
  | _, _, Except.error e, _, _, _, _ => Except.error e
  | _, _, _, Except.error e, _, _, _ => Except.error e
  | _, _, _, _, Except.error e, _, _ => Except.error e
  | _, _, _, _, _, Except.error e, _ => Except.error e
  | _, _, _, _, _, _, Except.error e => Except.error e

/-- The empty treeherder configuration (`{}`), used when the task carries no
`extra.treeherder` object. -/
def emptyTreeherderConfig : THConfig :=
  { build := none, machine := none, machineId := none, symbol := none, groupName := none,
    groupSymbol := none, tier := none, productName := none, collection := none,
    revision_hash := none, revision := none, jobKind := none }

/-- The `task.extra.treeherder` object of a task, or `{}` when absent
(`(task.extra && task.extra.treeherder) || \x7b\x7d`). -/
def treeherderOf (task : Task) : THConfig :=
  match task.extra with
  | some e => e.treeherder.getD emptyTreeherderConfig
  | none => emptyTreeherderConfig

/-- Deep-merge of one platform object over its default
(`\x7bplatform: task.workerType\x7d`): the override wins field-by-field. -/
def mergedPlatform (workerType : String) (o : Option THPlatform) : THPlatform :=
  match o with
  | none => { platform := some workerType, os_name := none, architecture := none, os := none }
  | some p => { p with platform := some (p.platform.getD workerType) }

/-- The `_.merge` step of `jobFromTask`: seed build/machine platforms from the
worker type, `machineId` from the run, `revision` and `revision_hash` to the
empty string, then let the task-supplied object win field-by-field. -/
def mergeTreeherderDefaults (task : Task) (run : Run) (th : THConfig) : THConfig :=
  { build := some (mergedPlatform task.workerType th.build),
    machine := some (mergedPlatform task.workerType th.machine),
    machineId := match th.machineId with | some v => some v | none => run.workerId,
    symbol := th.symbol,
    groupName := th.groupName,
    groupSymbol := th.groupSymbol,
    tier := th.tier,
    productName := th.productName,
    collection := th.collection,
    revision_hash := some (th.revision_hash.getD ""),
    revision := some (th.revision.getD ""),
    jobKind := th.jobKind }

/-- The default option collection `\x7bopt: true\x7d`. -/
def defaultCollection : Collection :=
  { opt := some true, debug := none, pgo := none, cc := none, asan := none,
    tsan := none, addon := none }

/-- Backwards-compatibility default: tasks that define no collection get
`\x7bopt: true\x7d`. -/
def applyCollectionDefault (c : THConfig) : THConfig :=
  match c.collection with
  | some _ => c
  | none => { c with collection := some defaultCollection }

/-- Numeric chunk symbols are type-cast to strings before validation. -/
def coerceSymbol (c : THConfig) : THConfig :=
  match c.symbol with
  | some (SymbolVal.num n) => { c with symbol := some (SymbolVal.str (toString n)) }
  | _ => c

/-- Build the job record from the validated configuration (the tail of
`jobFromTask` after `Joi.validate` succeeded).  The conditional fields mirror
the JS truthiness guards `if (config.groupName) ...` etc. -/
def mkJobRecord (decode : String → String) (taskId : String) (task : Task) (run : Run)
    (config : ValidConfig) : Job :=
  { job_guid := decode taskId ++ "/" ++ toString run.runId,
    build_system_type := "taskcluster",
    build_platform := config.build,
    machine_platform := config.machine,
    machine := config.machineId,
    name := task.metadata.name.take 99,
    reason := "scheduled",
    job_symbol := config.symbol,
    submit_timestamp := timestamp task.created,
    start_timestamp := run.started.map timestamp,
    end_timestamp := run.resolved.map timestamp,
    who := task.metadata.owner,
    option_collection := config.collection,
    group_name := if config.groupName = "" then none else some config.groupName,
    group_symbol := if config.groupSymbol = "" then none else some config.groupSymbol,
    product_name := config.productName.bind (fun s => if s = "" then none else some s),
    tier := if config.tier = 0 then none else some config.tier,
    artifacts :=
      [{ type := "json", name := "Job Info",
         job_details :=
           [{ url := inspectorLink taskId run, value := "Inspect Task",
              content_type := "link", title := "Inspect Task" }] }],
    state := none,
    result := none,
    log_references := none }

/-- The record normalizer `jobFromTask(taskId, task, run)`: merge defaults,
default the collection, coerce a numeric symbol, validate against the schema,
and build the job record.  `decode` is the external `slugid.decode`
collaborator. -/
def jobFromTask (decode : String → String) (taskId : String) (task : Task) (run : Run) :
    Except String Job :=
  let th := treeherderOf task
  let merged := coerceSymbol (applyCollectionDefault (mergeTreeherderDefaults task run th))
  match validateTH merged with
  | Except.error e => Except.error e
  | Except.ok config => Except.ok (mkJobRecord decode taskId task run config)

/-- The already-resolved route identity handed to the per-event handlers
(`pushInfo`, created from the parsed task route). -/
structure PushInfo where
  project : String
  revision : Option String
  revisionHash : Option String
deriving Repr, DecidableEq

/-- One push object as handed to `addPush` by the handlers. -/
structure PushRec where
  revision_hash : Option String
  revision : Option String
  project : String
  job : Job
deriving Repr, DecidableEq

/-- The answer of the external scheduler inspection API
(`scheduler.inspectTask`): the number of reruns recorded for a task. -/
structure SchedTaskInfo where
  reruns : Nat
deriving Repr, DecidableEq

namespace Handler

/-- The push contributed by `handleTaskRerun`: a record for the run at index
`payload.runId - 1` of the same task, marked `completed`/`retry` with a log
reference. -/
def handleTaskRerun (decode : String → String) (pushInfo : PushInfo) (task : Task)
    (payload : EventPayload) : Except String PushRec :=
  let taskId := payload.status.taskId
  match payload.status.runs[payload.runId - 1]? with
  | none => Except.error "cannot read property of undefined run"
  | some run =>
    match jobFromTask decode taskId task run with
    | Except.error e => Except.error e
    | Except.ok j =>
      Except.ok
        { revision_hash := pushInfo.revisionHash, revision := pushInfo.revision,
          project := pushInfo.project,
          job := { j with state := some "completed", result := some "retry",
                          log_references := some (createLogReferences taskId run) } }

/-- `handleTaskPending`: when the run index is non-zero and the run was
created for a rerun or retry, first contribute the rerun record for the
previous run, then the normal record for the current run. -/
def handleTaskPending (decode : String → String) (pushInfo : PushInfo) (task : Task)
    (payload : EventPayload) : Except String (List PushRec) :=
  let taskId := payload.status.taskId
  match payload.status.runs[payload.runId]? with
  | none => Except.error "cannot read property of undefined run"
  | some run =>
    let rerunPart : Except String (List PushRec) :=
      if payload.runId ≠ 0 ∧ (run.reasonCreated = "rerun" ∨ run.reasonCreated = "retry") then
        match handleTaskRerun decode pushInfo task payload with
        | Except.error e => Except.error e
        | Except.ok p => Except.ok [p]
      else Except.ok []
    match rerunPart with
    | Except.error e => Except.error e
    | Except.ok pre =>
      match jobFromTask decode taskId task run with
      | Except.error e => Except.error e
      | Except.ok j =>
        Except.ok (pre ++
          [{ revision_hash := pushInfo.revisionHash, revision := pushInfo.revision,
             project := pushInfo.project,
             job := { j with state := some (stateFromRun run),
                             result := some (resultFromRun run) } }])

/-- `handleTaskRunning`: contribute the normal record, no rerun handling, no
log reference. -/
def handleTaskRunning (decode : String → String) (pushInfo : PushInfo) (task : Task)
    (payload : EventPayload) : Except String (List PushRec) :=
  let taskId := payload.status.taskId
  match payload.status.runs[payload.runId]? with
  | none => Except.error "cannot read property of undefined run"
  | some run =>
    match jobFromTask decode taskId task run with
    | Except.error e => Except.error e
    | Except.ok j =>
      Except.ok
        [{ revision_hash := pushInfo.revisionHash, revision := pushInfo.revision,
           project := pushInfo.project,
           job := { j with state := some (stateFromRun run),
                           result := some (resultFromRun run) } }]

/-- An exception run is only reported when it was not itself created because
of an exception. -/
def shouldReportExceptionRun (run : Run) : Bool :=
  run.reasonCreated ≠ "exception"

/-- `handleTaskException`: suppress entirely when the run was created with
reason `exception`, otherwise contribute the normal record. -/
def handleTaskException (decode : String → String) (pushInfo : PushInfo) (task : Task)
    (payload : EventPayload) : Except String (List PushRec) :=
  let taskId := payload.status.taskId
  match payload.status.runs[payload.runId]? with
  | none => Except.error "cannot read property of undefined run"
  | some run =>
    if shouldReportExceptionRun run = false then Except.ok []
    else
      match jobFromTask decode taskId task run with
      | Except.error e => Except.error e
      | Except.ok j =>
        Except.ok
          [{ revision_hash := pushInfo.revisionHash, revision := pushInfo.revision,
             project := pushInfo.project,
             job := { j with state := some (stateFromRun run),
                             result := some (resultFromRun run) } }]

/-- JS truthiness of the `task.taskGroupId` string. -/
def taskGroupTruthy (task : Task) : Bool :=
  match task.taskGroupId with
  | some s => s ≠ ""
  | none => false

/-- `handleTaskFailed`: for tasks of the `task-graph-scheduler` with a task
group, query the scheduler (`inspect`); when the recorded rerun count exceeds
the current run index the event is suppressed (the rerun path will update the
job); a failed query is logged and ignored.  When not suppressed, contribute
the normal record with a log reference. -/
def handleTaskFailed (decode : String → String)
    (inspect : String → String → Except Unit SchedTaskInfo) (pushInfo : PushInfo)
    (task : Task) (payload : EventPayload) : Except String (List PushRec) :=
  let taskId := payload.status.taskId
  match payload.status.runs[payload.runId]? with
  | none => Except.error "cannot read property of undefined run"
  | some run =>
    let state := stateFromRun run
    let result := resultFromRun run
    let suppressed :=
      if task.schedulerId = "task-graph-scheduler" ∧ taskGroupTruthy task then
        match inspect (task.taskGroupId.getD "") taskId with
        | Except.ok taskInfo => taskInfo.reruns > payload.runId
        | Except.error _ => false
      else false
    if suppressed then Except.ok []
    else
      match jobFromTask decode taskId task run with
      | Except.error e => Except.error e
      | Except.ok j =>
        Except.ok
          [{ revision_hash := pushInfo.revisionHash, revision := pushInfo.revision,
             project := pushInfo.project,
             job := { j with state := some state, result := some result,
                             log_references := some (createLogReferences taskId run) } }]

/-- `handleTaskCompleted`: contribute the normal record with a log
reference. -/
def handleTaskCompleted (decode : String → String) (pushInfo : PushInfo) (task : Task)
    (payload : EventPayload) : Except String (List PushRec) :=
  let taskId := payload.status.taskId
  match payload.status.runs[payload.runId]? with
  | none => Except.error "cannot read property of undefined run"
  | some run =>
    match jobFromTask decode taskId task run with
    | Except.error e => Except.error e
    | Except.ok j =>
      Except.ok
        [{ revision_hash := pushInfo.revisionHash, revision := pushInfo.revision,
           project := pushInfo.project,
           job := { j with state := some (stateFromRun run),
                           result := some (resultFromRun run),
                           log_references := some (createLogReferences taskId run) } }]

end Handler

/-- The mutable per-project accumulation state
(`this._pendingPushes[project]`): the completion handle shared by the current
contributors, the ordered pending pushes, and the in-flight flag.  Completion
handles (`defer()` promises) are modelled by the `Nat` at which they were
allocated from a fresh-handle counter. -/
structure PendingState where
  promise : Nat
  pushes : List PushRec
  active : Bool
deriving Repr, DecidableEq

/-- The batching-engine state: the per-project pending map (an association
list keyed by project) plus the counter supplying fresh completion
handles. -/
structure BatchState where
  pendingPushes : List (String × PendingState)
  nextHandle : Nat
deriving Repr, DecidableEq

/-- The empty batching state (no project has contributed yet). -/
def emptyBatchState : BatchState :=
  { pendingPushes := [], nextHandle := 0 }

/-- Look up the pending state of a project. -/
def lookupPending (s : BatchState) (p : String) : Option PendingState :=
  (s.pendingPushes.find? (fun e => e.1 = p)).map Prod.snd

/-- Replace the pending state stored under a project key. -/
def updatePending (l : List (String × PendingState)) (p : String) (v : PendingState) :
    List (String × PendingState) :=
  l.map (fun e => if e.1 = p then (p, v) else e)

/-- The data detached by `tryPush` at the instant a flush begins: the records
being flushed and the completion handle of their contributors. -/
structure FlushOp where
  project : String
  pushes : List PushRec
  promise : Nat
deriving Repr, DecidableEq

/-- How a detached completion handle is settled when the flush finishes. -/
inductive HandleOutcome where
  | accepted (res : Nat)
  | rejected (err : Nat)
deriving Repr, DecidableEq

namespace Handler

/-- `addPush(push)`: create the per-project state on first contribution
(fresh handle, no pushes, not active), append the push to the current pending
list, and return the completion handle the contributor will await. -/
def addPush (s : BatchState) (push : PushRec) : BatchState × Nat :=
  match lookupPending s push.project with
  | none =>
    ({ pendingPushes := s.pendingPushes ++
         [(push.project, { promise := s.nextHandle, pushes := [push], active := false })],
       nextHandle := s.nextHandle + 1 },
     s.nextHandle)
  | some pend =>
    ({ pendingPushes := updatePending s.pendingPushes push.project
         { pend with pushes := pend.pushes ++ [push] },
       nextHandle := s.nextHandle },
     pend.promise)

/-- Iterate `addPush` over a list of contributions in order, collecting the
returned completion handles (the shape of N consecutive `contribute`
calls). -/
def addPushes (s : BatchState) : List PushRec → BatchState × List Nat
  | [] => (s, [])
  | push :: rest =>
    let r1 := addPush s push
    let r2 := addPushes r1.1 rest
    (r2.1, r1.2 :: r2.2)

/-- The synchronous head of `tryPush(projectName, pending)`: detach the
pending pushes and their completion handle, then reset the project state so
that ongoing contributions land in a new list under a new handle, with the
in-flight flag set. -/
def tryPushStart (s : BatchState) (p : String) : BatchState × Option FlushOp :=
  match lookupPending s p with
  | none => (s, none)
  | some pend =>
    ({ pendingPushes := updatePending s.pendingPushes p
         { promise := s.nextHandle, pushes := [], active := true },
       nextHandle := s.nextHandle + 1 },
     some { project := p, pushes := pend.pushes, promise := pend.promise })

/-- Clear the in-flight flag of a project (the `pending.active = false`
performed on both the success and the failure path of `tryPush`). -/
def clearActive (s : BatchState) (p : String) : BatchState :=
  match lookupPending s p with
  | none => s
  | some pend =>
    { s with pendingPushes := updatePending s.pendingPushes p { pend with active := false } }

/-- The tail of `tryPush` after `project.postJobs(pushes)` settled: on
success accept the detached handle with the response, on failure reject it
with the error; in both cases clear the in-flight flag and never re-queue the
detached pushes. -/
def tryPushFinish (s : BatchState) (op : FlushOp) (result : Except Nat Nat) :
    BatchState × (Nat × HandleOutcome) :=
  match result with
  | Except.ok res => (clearActive s op.project, (op.promise, HandleOutcome.accepted res))
  | Except.error e => (clearActive s op.project, (op.promise, HandleOutcome.rejected e))

/-- One iteration of the `check()` loop body for one project key: begin a
flush (the synchronous head of `tryPush`) when the project is not in-flight
and has a non-empty pending list, otherwise skip it. -/
def checkStep (acc : BatchState × List FlushOp) (p : String) : BatchState × List FlushOp :=
  match lookupPending acc.1 p with
  | none => acc
  | some pend =>
    if pend.active = false ∧ pend.pushes.length ≠ 0 then
      ((tryPushStart acc.1 p).1, acc.2 ++ (tryPushStart acc.1 p).2.toList)
    else acc

/-- `check()`: walk the project keys; for every project that is not in-flight
and has a non-empty pending list, begin a flush; skip the others. -/
def check (s : BatchState) : BatchState × List FlushOp :=
  (s.pendingPushes.map Prod.fst).foldl checkStep (s, [])

end Handler

/-- Well-formedness of a batching state: project keys are unique and every
stored completion handle was allocated below the fresh-handle counter. -/
def BatchWF (s : BatchState) : Prop :=
  (s.pendingPushes.map Prod.fst).Nodup ∧
    ∀ e ∈ s.pendingPushes, e.2.promise < s.nextHandle

instance (s : BatchState) : Decidable (BatchWF s) := by
  unfold BatchWF; infer_instance

/-- The five task lifecycle event kinds the dispatcher understands. -/
inductive EventKind where
  | pending
  | running
  | completed
  | failed
  | exception
deriving Repr, DecidableEq

/-- Modelled from the spec: the exchange names come from the external
taskcluster-client `QueueEvents` (not part of this repository); `EVENT_MAP`
sends each of the five known exchanges to its event kind and everything else
to nothing. -/
def EVENT_MAP (exchange : String) : Option EventKind :=
  if exchange = "exchange/taskcluster-queue/v1/task-pending" then some EventKind.pending
  else if exchange = "exchange/taskcluster-queue/v1/task-running" then some EventKind.running
  else if exchange = "exchange/taskcluster-queue/v1/task-completed" then
    some EventKind.completed
  else if exchange = "exchange/taskcluster-queue/v1/task-failed" then some EventKind.failed
  else if exchange = "exchange/taskcluster-queue/v1/task-exception" then
    some EventKind.exception
  else none

/-- Modelled from the spec: the result of the external route parser
(`parseRoute` from `util/route_parser`, not under `src/`), resolving a route
into a project identifier, a revision and a revision hash, each possibly
missing. -/
structure ParsedRoute where
  project : Option String
  revision : Option String
  revisionHash : Option String
deriving Repr, DecidableEq

/-- An incoming message from the event listener. -/
structure Message where
  payload : EventPayload
  exchange : String
  routes : List String
deriving Repr, DecidableEq

/-- The observable outcome of `handleTaskEvent`: the event was dropped with a
logged diagnostic (the function returns normally without contributing), it
contributed pushes, or it raised an error (a `throw` or a rejected
normalization). -/
inductive EventOutcome where
  | dropped (diag : String)
  | handled (pushes : List PushRec)
  | raised (msg : String)
deriving Repr, DecidableEq

/-- First dot-separated segment of a route (`route.split(".")[0]`). -/
def firstSegment (r : String) : String :=
  (r.data.takeWhile (fun c => c ≠ '.')).asString

/-- JS truthiness of an optional string (absent and empty are falsy). -/
def truthyStr (o : Option String) : Bool :=
  match o with
  | some s => s ≠ ""
  | none => false

namespace Handler

/-- `handleTaskEvent(message)`: resolve the event kind from the exchange
(dropping unknown exchanges with a logged error), find the route whose first
dot-separated segment equals the configured route root (throwing when there
is none), parse it, then check the project and, after fetching the task and
letting a task-supplied revision override the routing-key revision, check
that a revision or revision hash is available.  The two checks intend to drop
the event with a `debug` diagnostic, but their template literals read the
variable `taskId`, which is never declared in this method (the dispatch path
below uses `payload.status.taskId`); in a strict-mode ES module that read
throws `ReferenceError: taskId is not defined` before the `return`, so both
branches actually raise.  Otherwise dispatch to the per-kind handler.
`decode`, `inspect`, `parseRoute` and `fetchTask` are the external
collaborators used along the way. -/
def handleTaskEvent (decode : String → String)
    (inspect : String → String → Except Unit SchedTaskInfo)
    (parseRoute : String → ParsedRoute) (fetchTask : String → Task)
    (routeRoot : String) (message : Message) : EventOutcome :=
  match EVENT_MAP message.exchange with
  | none => EventOutcome.dropped ("Unknown state " ++ message.exchange)
  | some kind =>
    match message.routes.find? (fun route => firstSegment route = routeRoot) with
    | none => EventOutcome.raised ("Unexpected message (no route) on " ++ message.exchange)
    | some route =>
      let parsedRoute := parseRoute route
      if truthyStr parsedRoute.project = false then
        EventOutcome.raised "ReferenceError: taskId is not defined"
      else
        let task := fetchTask message.payload.status.taskId
        let revision := (treeherderOf task).revision
        let parsedRoute :=
          if truthyStr revision then { parsedRoute with revision := revision }
          else parsedRoute
        if truthyStr parsedRoute.revision = false ∧
            truthyStr parsedRoute.revisionHash = false then
          EventOutcome.raised "ReferenceError: taskId is not defined"
        else
          let pushInfo : PushInfo :=
            { project := parsedRoute.project.getD "",
              revision := parsedRoute.revision,
              revisionHash := parsedRoute.revisionHash }
          let res :=
            match kind with
            | EventKind.pending => handleTaskPending decode pushInfo task message.payload
            | EventKind.running => handleTaskRunning decode pushInfo task message.payload
            | EventKind.completed => handleTaskCompleted decode pushInfo task message.payload
            | EventKind.exception => handleTaskException decode pushInfo task message.payload
            | EventKind.failed =>
              handleTaskFailed decode inspect pushInfo task message.payload
          match res with
          | Except.ok pushes => EventOutcome.handled pushes
          | Except.error e => EventOutcome.raised e

end Handler

/-! ## Sample data used by witnesses -/

/-- A pending run. -/
def runPending : Run :=
  { runId := 0, state := "pending", reasonCreated := "scheduled", reasonResolved := none,
    workerId := none, started := none, resolved := none }

/-- A failed run. -/
def runFailed : Run :=
  { runId := 0, state := "failed", reasonCreated := "scheduled",
    reasonResolved := some "failed", workerId := some "w1", started := some 1420000001000,
    resolved := some 1420000002000 }

/-- A completed run. -/
def runCompleted : Run :=
  { runId := 0, state := "completed", reasonCreated := "scheduled",
    reasonResolved := some "completed", workerId := some "w1",
    started := some 1420000001000, resolved := some 1420000002000 }

/-- An exception run that was canceled by the user. -/
def runExcCanceled : Run :=
  { runId := 0, state := "exception", reasonCreated := "scheduled",
    reasonResolved := some "canceled", workerId := some "w1",
    started := some 1420000001000, resolved := some 1420000002000 }

/-- An exception run resolved for another reason. -/
def runExcOther : Run :=
  { runId := 0, state := "exception", reasonCreated := "scheduled",
    reasonResolved := some "deadline-exceeded", workerId := some "w1",
    started := some 1420000001000, resolved := some 1420000002000 }

/-! ## C4: state and result mapping -/

/-- C4: for every run, the derived job state is `completed` when the run
state is `exception` or `failed` and equals the run state otherwise; the
derived result is `success` for `completed`, `testfailed` for `failed`,
`usercancel` for `exception` resolved as `canceled`, `exception` for any
other exception, and `unknown` for every other run state. -/
theorem stateFromRun_resultFromRun_spec (run : Run) :
    ((run.state = "exception" ∨ run.state = "failed") → stateFromRun run = "completed") ∧
    (run.state ≠ "exception" → run.state ≠ "failed" → stateFromRun run = run.state) ∧
    (run.state = "completed" → resultFromRun run = "success") ∧
    (run.state = "failed" → resultFromRun run = "testfailed") ∧
    (run.state = "exception" → run.reasonResolved = some "canceled" →
      resultFromRun run = "usercancel") ∧
    (run.state = "exception" → run.reasonResolved ≠ some "canceled" →
      resultFromRun run = "exception") ∧
    (run.state ≠ "completed" → run.state ≠ "failed" → run.state ≠ "exception" →
      resultFromRun run = "unknown") := by
  unfold stateFromRun resultFromRun
  refine ⟨?_, ?_, ?_, ?_, ?_, ?_, ?_⟩ <;> intros <;> simp_all

/-- Witness for C4 at concrete runs covering every row of the mapping. -/
theorem stateFromRun_resultFromRun_spec_witness :
    stateFromRun runExcOther = "completed" ∧
    stateFromRun runPending = "pending" ∧
    resultFromRun runCompleted = "success" ∧
    resultFromRun runFailed = "testfailed" ∧
    resultFromRun runExcCanceled = "usercancel" ∧
    resultFromRun runExcOther = "exception" ∧
    resultFromRun runPending = "unknown" :=
  ⟨(stateFromRun_resultFromRun_spec runExcOther).1 (Or.inl (by decide)),
   (stateFromRun_resultFromRun_spec runPending).2.1 (by decide) (by decide),
   (stateFromRun_resultFromRun_spec runCompleted).2.2.1 (by decide),
   (stateFromRun_resultFromRun_spec runFailed).2.2.2.1 (by decide),
   (stateFromRun_resultFromRun_spec runExcCanceled).2.2.2.2.1 (by decide) (by decide),
   (stateFromRun_resultFromRun_spec runExcOther).2.2.2.2.2.1 (by decide) (by decide),
   (stateFromRun_resultFromRun_spec runPending).2.2.2.2.2.2 (by decide) (by decide) (by decide)⟩

/-! ## More sample data shared by witnesses -/

/-- The identity stand-in for the external slugid decoder, used where a
witness needs a concrete decoder. -/
def idDecode : String → String := fun s => s

/-- A resolved route identity for witnesses. -/
def samplePushInfo : PushInfo :=
  { project := "try", revision := some "abc123", revisionHash := none }

/-- A valid treeherder configuration with a string symbol. -/
def sampleTHStr : THConfig :=
  { emptyTreeherderConfig with
      build := some { platform := some "b2g-emu", os_name := none, architecture := none,
                      os := none },
      machine := some { platform := some "b2g-emu", os_name := none, architecture := none,
                        os := none },
      symbol := some (SymbolVal.str "B") }

/-- A task whose treeherder configuration validates. -/
def taskValid : Task :=
  { extra := some { treeherder := some sampleTHStr },
    workerType := "b2g-test",
    metadata := { name := "Sample task", owner := "dev@example.com" },
    created := 1420000000123,
    schedulerId := "unknown-scheduler",
    taskGroupId := none }

/-- A placeholder validated configuration, only used to give a total variant
of `jobFromTask` something to return on the error path. -/
def dummyValidConfig : ValidConfig :=
  { build := { platform := "p", os_name := "-", architecture := "-" },
    machine := { platform := "p", os_name := "-", architecture := "-" },
    machineId := none, symbol := "S", groupName := "unknown", groupSymbol := "?",
    tier := 1, productName := none, collection := none, revision_hash := none,
    revision := none, jobKind := none }

/-- Total variant of `jobFromTask` used by witnesses to name the concrete job
a successful normalization produced. -/
def jobFromTaskD (decode : String → String) (taskId : String) (task : Task) (run : Run) :
    Job :=
  match jobFromTask decode taskId task run with
  | Except.ok j => j
  | Except.error _ => mkJobRecord decode taskId task run dummyValidConfig

/-- An exception run that was itself created because of an exception. -/
def runExcAuto : Run :=
  { runId := 0, state := "exception", reasonCreated := "exception",
    reasonResolved := some "canceled", workerId := none, started := none, resolved := none }

/-- Payload of an exception event for `runExcAuto`. -/
def payloadExcAuto : EventPayload :=
  { status := { taskId := "tid", runs := [runExcAuto] }, runId := 0 }

/-- The second run of a task, created as a rerun. -/
def runRerun1 : Run :=
  { runId := 1, state := "pending", reasonCreated := "rerun", reasonResolved := none,
    workerId := none, started := none, resolved := none }

/-- Payload of a pending event for the rerun `runRerun1` (run 0 failed). -/
def payloadRerun : EventPayload :=
  { status := { taskId := "tid", runs := [runFailed, runRerun1] }, runId := 1 }

/-! ## C6: exception suppression -/

/-- C6: for every exception event, if the run's creation reason equals
`exception` then processing contributes no record at all; otherwise it
contributes exactly the one normal record with the mapped state and
result. -/
theorem handleTaskException_spec (decode : String → String) (pushInfo : PushInfo)
    (task : Task) (payload : EventPayload) (run : Run)
    (hrun : payload.status.runs[payload.runId]? = some run) :
    (run.reasonCreated = "exception" →
      Handler.handleTaskException decode pushInfo task payload = Except.ok []) ∧
    (run.reasonCreated ≠ "exception" →
      ∀ j, jobFromTask decode payload.status.taskId task run = Except.ok j →
        Handler.handleTaskException decode pushInfo task payload =
          Except.ok
            [{ revision_hash := pushInfo.revisionHash, revision := pushInfo.revision,
               project := pushInfo.project,
               job := { j with state := some (stateFromRun run),
                               result := some (resultFromRun run) } }]) := by
  constructor
  · intro h
    simp [Handler.handleTaskException, hrun, Handler.shouldReportExceptionRun, h]
  · intro h j hj
    simp [Handler.handleTaskException, hrun, Handler.shouldReportExceptionRun, h, hj]

/-- Witness for C6: the auto-generated exception run is suppressed. -/
theorem handleTaskException_spec_witness :
    Handler.handleTaskException idDecode samplePushInfo taskValid payloadExcAuto =
      Except.ok [] :=
  (handleTaskException_spec idDecode samplePushInfo taskValid payloadExcAuto runExcAuto
    (by decide)).1 (by decide)

/-! ## C3: rerun marking on pending events -/

/-- C3: a pending event whose run was created for a rerun or retry and whose
run index is positive contributes exactly two records: first the record for
the run at index `runId - 1` marked `completed`/`retry` with a log reference,
then the normal record for the current run; every other pending event
contributes exactly the one normal record. -/
theorem handleTaskPending_spec (decode : String → String) (pushInfo : PushInfo)
    (task : Task) (payload : EventPayload) (run prevRun : Run) (j0 j1 : Job)
    (hrun : payload.status.runs[payload.runId]? = some run) :
    (payload.runId ≠ 0 →
      (run.reasonCreated = "rerun" ∨ run.reasonCreated = "retry") →
      payload.status.runs[payload.runId - 1]? = some prevRun →
      jobFromTask decode payload.status.taskId task prevRun = Except.ok j0 →
      jobFromTask decode payload.status.taskId task run = Except.ok j1 →
      Handler.handleTaskPending decode pushInfo task payload =
        Except.ok
          [{ revision_hash := pushInfo.revisionHash, revision := pushInfo.revision,
             project := pushInfo.project,
             job := { j0 with state := some "completed", result := some "retry",
                              log_references :=
                                some (createLogReferences payload.status.taskId prevRun) } },
           { revision_hash := pushInfo.revisionHash, revision := pushInfo.revision,
             project := pushInfo.project,
             job := { j1 with state := some (stateFromRun run),
                              result := some (resultFromRun run) } }]) ∧
    (¬ (payload.runId ≠ 0 ∧ (run.reasonCreated = "rerun" ∨ run.reasonCreated = "retry")) →
      jobFromTask decode payload.status.taskId task run = Except.ok j1 →
      Handler.handleTaskPending decode pushInfo task payload =
        Except.ok
          [{ revision_hash := pushInfo.revisionHash, revision := pushInfo.revision,
             project := pushInfo.project,
             job := { j1 with state := some (stateFromRun run),
                              result := some (resultFromRun run) } }]) := by
  constructor
  · intro hpos hreason hprev hj0 hj1
    have hcond : payload.runId ≠ 0 ∧
        (run.reasonCreated = "rerun" ∨ run.reasonCreated = "retry") := ⟨hpos, hreason⟩
    simp [Handler.handleTaskPending, Handler.handleTaskRerun, hrun, hprev, hj0, hj1, hcond]
  · intro hcond hj1
    simp [Handler.handleTaskPending, hrun, hj1, hcond]

/-- Witness for C3: the spec rerun scenario (`reasonCreated = "rerun"`,
`runId = 1`) yields the retry record for run 0 followed by the mapped record
for run 1. -/
theorem handleTaskPending_spec_witness :
    Handler.handleTaskPending idDecode samplePushInfo taskValid payloadRerun =
      Except.ok
        [{ revision_hash := samplePushInfo.revisionHash, revision := samplePushInfo.revision,
           project := samplePushInfo.project,
           job := { jobFromTaskD idDecode "tid" taskValid runFailed with
                      state := some "completed", result := some "retry",
                      log_references := some (createLogReferences "tid" runFailed) } },
         { revision_hash := samplePushInfo.revisionHash, revision := samplePushInfo.revision,
           project := samplePushInfo.project,
           job := { jobFromTaskD idDecode "tid" taskValid runRerun1 with
                      state := some (stateFromRun runRerun1),
                      result := some (resultFromRun runRerun1) } }] :=
  (handleTaskPending_spec idDecode samplePushInfo taskValid payloadRerun runRerun1 runFailed
      (jobFromTaskD idDecode "tid" taskValid runFailed)
      (jobFromTaskD idDecode "tid" taskValid runRerun1) (by decide)).1
    (by decide) (Or.inl (by decide)) (by decide) rfl rfl

/-! ## C5: failed events and retry inspection -/

/-- A task of the retry-capable scheduling domain. -/
def taskTG : Task :=
  { taskValid with schedulerId := "task-graph-scheduler", taskGroupId := some "tg1" }

/-- The second run of a task, failed. -/
def runFailed1 : Run :=
  { runFailed with runId := 1 }

/-- Payload of a failed event for run 1. -/
def payloadFailed1 : EventPayload :=
  { status := { taskId := "tid", runs := [runFailed, runFailed1] }, runId := 1 }

/-- A retry-inspection collaborator reporting two recorded reruns. -/
def inspectTwoReruns : String → String → Except Unit SchedTaskInfo :=
  fun _ _ => Except.ok { reruns := 2 }

/-- C5: for a failed event on a task of the `task-graph-scheduler` domain
with a task group, a successful retry query reporting more reruns than the
current run index suppresses the event; when the query fails, or reports no
more reruns than the run index, or the task is outside the retry-capable
domain, exactly the one normal record with a log reference is
contributed. -/
theorem handleTaskFailed_spec (decode : String → String)
    (inspect : String → String → Except Unit SchedTaskInfo) (pushInfo : PushInfo)
    (task : Task) (payload : EventPayload) (run : Run)
    (hrun : payload.status.runs[payload.runId]? = some run) :
    (task.schedulerId = "task-graph-scheduler" → Handler.taskGroupTruthy task = true →
      ∀ info, inspect (task.taskGroupId.getD "") payload.status.taskId = Except.ok info →
        info.reruns > payload.runId →
        Handler.handleTaskFailed decode inspect pushInfo task payload = Except.ok []) ∧
    (∀ j, jobFromTask decode payload.status.taskId task run = Except.ok j →
      (¬ (task.schedulerId = "task-graph-scheduler" ∧ Handler.taskGroupTruthy task = true) ∨
        inspect (task.taskGroupId.getD "") payload.status.taskId = Except.error () ∨
        (∃ info, inspect (task.taskGroupId.getD "") payload.status.taskId = Except.ok info ∧
          ¬ info.reruns > payload.runId)) →
      Handler.handleTaskFailed decode inspect pushInfo task payload =
        Except.ok
          [{ revision_hash := pushInfo.revisionHash, revision := pushInfo.revision,
             project := pushInfo.project,
             job := { j with state := some (stateFromRun run),
                             result := some (resultFromRun run),
                             log_references :=
                               some (createLogReferences payload.status.taskId run) } }]) := by
  constructor
  · intro hsched hgrp info hins hgt
    simp [Handler.handleTaskFailed, hrun, hsched, hgrp, hins, hgt]
  · intro j hj hcase
    rcases hcase with hcond | hfail | ⟨info, hins, hle⟩
    · simp [Handler.handleTaskFailed, hrun, hj, hcond]
    · by_cases hcond : task.schedulerId = "task-graph-scheduler" ∧
        Handler.taskGroupTruthy task = true
      · simp [Handler.handleTaskFailed, hrun, hj, hcond, hfail]
      · simp [Handler.handleTaskFailed, hrun, hj, hcond]
    · by_cases hcond : task.schedulerId = "task-graph-scheduler" ∧
        Handler.taskGroupTruthy task = true
      · simp [Handler.handleTaskFailed, hrun, hj, hcond, hins, hle]
      · simp [Handler.handleTaskFailed, hrun, hj, hcond]

/-- Witness for C5: the spec scenario (`reruns = 2`, `runId = 1`, retry-capable
domain) is suppressed. -/
theorem handleTaskFailed_spec_witness :
    Handler.handleTaskFailed idDecode inspectTwoReruns samplePushInfo taskTG
      payloadFailed1 = Except.ok [] :=
  (handleTaskFailed_spec idDecode inspectTwoReruns samplePushInfo taskTG payloadFailed1
      runFailed1 (by decide)).1 (by decide) (by decide) { reruns := 2 } rfl (by decide)

/-! ## C8: job identifier and symbol coercion

Helper facts about decimal digit strings, used to show that the
`decodedTaskId/runId` naming scheme is injective. -/

/-- Value of a decimal digit character. -/
def dval (c : Char) : Nat :=
  if c = '0' then 0 else if c = '1' then 1 else if c = '2' then 2 else
  if c = '3' then 3 else if c = '4' then 4 else if c = '5' then 5 else
  if c = '6' then 6 else if c = '7' then 7 else if c = '8' then 8 else
  if c = '9' then 9 else 0

/-- Decimal value of a digit string. -/
def digitsVal (ds : List Char) : Nat :=
  ds.foldl (fun a c => 10 * a + dval c) 0

lemma dval_digitChar (k : Nat) (h : k < 10) : dval (Nat.digitChar k) = k := by
  interval_cases k <;> rfl

lemma toDigitsCore_append (b : Nat) : ∀ (fuel n : Nat) (ds : List Char),
    Nat.toDigitsCore b fuel n ds = Nat.toDigitsCore b fuel n [] ++ ds := by
  intro fuel
  induction fuel with
  | zero => intro n ds; simp [Nat.toDigitsCore]
  | succ f ih =>
    intro n ds
    simp only [Nat.toDigitsCore]
    by_cases h : n / b = 0
    · simp [h]
    · simp only [h, if_false]
      rw [ih (n / b) (Nat.digitChar (n % b) :: ds), ih (n / b) [Nat.digitChar (n % b)]]
      simp

lemma digitsVal_toDigitsCore : ∀ (fuel n : Nat), n < fuel →
    digitsVal (Nat.toDigitsCore 10 fuel n []) = n := by
  intro fuel
  induction fuel with
  | zero => intro n h; exact absurd h (Nat.not_lt_zero n)
  | succ f ih =>
    intro n h
    simp only [Nat.toDigitsCore]
    by_cases h0 : n / 10 = 0
    · have hn : n < 10 := by omega
      simp [h0, digitsVal, dval_digitChar (n % 10) (Nat.mod_lt n (by norm_num))]
      omega
    · simp only [h0, if_false]
      rw [toDigitsCore_append 10 f (n / 10) [Nat.digitChar (n % 10)]]
      have ihv := ih (n / 10) (by omega)
      simp [digitsVal, List.foldl_append] at ihv ⊢
      rw [ihv, dval_digitChar (n % 10) (Nat.mod_lt n (by norm_num))]
      omega

lemma natRepr_inj (m n : Nat) (h : Nat.repr m = Nat.repr n) : m = n := by
  have hd : Nat.toDigits 10 m = Nat.toDigits 10 n := congrArg String.data h
  have hm := digitsVal_toDigitsCore (m + 1) m (Nat.lt_succ_self m)
  have hn := digitsVal_toDigitsCore (n + 1) n (Nat.lt_succ_self n)
  unfold Nat.toDigits at hd
  rw [← hm, ← hn, hd]

lemma toString_nat_inj (m n : Nat) (h : toString m = toString n) : m = n :=
  natRepr_inj m n h

lemma append_slash_inj : ∀ (a b x y : List Char), '/' ∉ a → '/' ∉ b →
    a ++ '/' :: x = b ++ '/' :: y → a = b ∧ x = y := by
  intro a
  induction a with
  | nil =>
    intro b x y _ hb h
    cases b with
    | nil => simp_all
    | cons d bs =>
      simp only [List.nil_append, List.cons_append, List.cons.injEq] at h
      exact absurd (h.1 ▸ List.mem_cons_self d bs) (by simp_all)
  | cons c as ih =>
    intro b x y ha hb h
    cases b with
    | nil =>
      simp only [List.nil_append, List.cons_append, List.cons.injEq] at h
      exact absurd (h.1 ▸ List.mem_cons_self c as) (by simp_all)
    | cons d bs =>
      simp only [List.cons_append, List.cons.injEq] at h
      obtain ⟨rfl, h2⟩ := h
      have := ih bs x y (by simp_all) (by simp_all) h2
      simp_all

lemma string_slash_inj (a b x y : String) (ha : '/' ∉ a.data) (hb : '/' ∉ b.data)
    (h : a ++ "/" ++ x = b ++ "/" ++ y) : a = b ∧ x = y := by
  have hd : a.data ++ '/' :: x.data = b.data ++ '/' :: y.data := by
    have := congrArg String.data h
    simpa using this
  obtain ⟨h1, h2⟩ := append_slash_inj a.data b.data x.data y.data ha hb hd
  constructor
  · cases a; cases b; exact congrArg String.mk h1
  · cases x; cases y; exact congrArg String.mk h2

/-- Extraction of per-field facts from a successful schema validation. -/
lemma validateTH_ok_parts (c : THConfig) (v : ValidConfig) (h : validateTH c = Except.ok v) :
    validSymbol c.symbol = Except.ok v.symbol ∧
    validStrDefault "groupName" "unknown" c.groupName = Except.ok v.groupName ∧
    validStrDefault "groupSymbol" "?" c.groupSymbol = Except.ok v.groupSymbol ∧
    v.tier = c.tier.getD 1 := by
  unfold validateTH at h
  split at h <;> cases h
  refine ⟨?_, ?_, ?_, rfl⟩ <;> assumption

/-- A normalization succeeds exactly when the merged, defaulted and coerced
configuration validates, and then returns the record built from the validated
configuration. -/
lemma jobFromTask_ok_iff (decode : String → String) (taskId : String) (task : Task)
    (run : Run) (j : Job) :
    jobFromTask decode taskId task run = Except.ok j ↔
    ∃ config, validateTH (coerceSymbol (applyCollectionDefault
        (mergeTreeherderDefaults task run (treeherderOf task)))) = Except.ok config ∧
      j = mkJobRecord decode taskId task run config := by
  unfold jobFromTask
  cases hv : validateTH (coerceSymbol (applyCollectionDefault
      (mergeTreeherderDefaults task run (treeherderOf task)))) <;>
    simp [hv, eq_comm]

lemma applyCollectionDefault_symbol (c : THConfig) :
    (applyCollectionDefault c).symbol = c.symbol := by
  unfold applyCollectionDefault; split <;> rfl

lemma applyCollectionDefault_tier (c : THConfig) :
    (applyCollectionDefault c).tier = c.tier := by
  unfold applyCollectionDefault; split <;> rfl

lemma coerceSymbol_num (c : THConfig) (n : Int) (h : c.symbol = some (SymbolVal.num n)) :
    (coerceSymbol c).symbol = some (SymbolVal.str (toString n)) := by
  unfold coerceSymbol
  rw [h]

lemma coerceSymbol_tier (c : THConfig) : (coerceSymbol c).tier = c.tier := by
  unfold coerceSymbol; split <;> simp_all

/-- C8: every successful normalization names the job by the decoded task
identifier followed by the run index; a numeric task-supplied symbol shows up
as its string form; and as long as the external decoder is injective and
slash-free on the task identifiers involved, equal job identifiers force
equal (taskId, runIndex) pairs. -/
theorem jobFromTask_guid_unique_spec (decode : String → String) (t1 t2 : String)
    (task1 task2 : Task) (r1 r2 : Run) (j1 j2 : Job)
    (h1 : jobFromTask decode t1 task1 r1 = Except.ok j1)
    (h2 : jobFromTask decode t2 task2 r2 = Except.ok j2) :
    j1.job_guid = decode t1 ++ "/" ++ toString r1.runId ∧
    (∀ n : Int, (treeherderOf task1).symbol = some (SymbolVal.num n) →
      j1.job_symbol = toString n) ∧
    ('/' ∉ (decode t1).data → '/' ∉ (decode t2).data →
      (decode t1 = decode t2 → t1 = t2) →
      j1.job_guid = j2.job_guid → t1 = t2 ∧ r1.runId = r2.runId) := by
  obtain ⟨c1, hv1, rfl⟩ := (jobFromTask_ok_iff decode t1 task1 r1 j1).1 h1
  obtain ⟨c2, hv2, rfl⟩ := (jobFromTask_ok_iff decode t2 task2 r2 j2).1 h2
  refine ⟨rfl, ?_, ?_⟩
  · intro n hsym
    have hparts := (validateTH_ok_parts _ _ hv1).1
    have hcs : (coerceSymbol (applyCollectionDefault
        (mergeTreeherderDefaults task1 r1 (treeherderOf task1)))).symbol =
        some (SymbolVal.str (toString n)) := by
      apply coerceSymbol_num
      rw [applyCollectionDefault_symbol]
      exact hsym
    rw [hcs] at hparts
    simp only [validSymbol] at hparts
    split at hparts
    · cases hparts
    · have : toString n = c1.symbol := by injection hparts
      show c1.symbol = toString n
      rw [← this]
  · intro hs1 hs2 hinj hguid
    have hsplit := string_slash_inj (decode t1) (decode t2)
      (toString r1.runId) (toString r2.runId) hs1 hs2 hguid
    exact ⟨hinj hsplit.1, toString_nat_inj _ _ hsplit.2⟩

/-- A slash-free injective stand-in for the slugid decoder. -/
def sampleDecode : String → String := fun s => "uuid-" ++ s

/-- A valid treeherder configuration whose symbol is the number `3`. -/
def thNumSym : THConfig :=
  { sampleTHStr with symbol := some (SymbolVal.num 3) }

/-- A valid task whose treeherder symbol is the number `3`. -/
def taskNumSym : Task :=
  { taskValid with extra := some { treeherder := some thNumSym } }

/-- Witness for C8: concrete guid formula, numeric-symbol coercion, and the
uniqueness conjunct applied with all its hypotheses discharged. -/
theorem jobFromTask_guid_unique_spec_witness :
    (jobFromTaskD sampleDecode "a" taskNumSym runPending).job_guid =
      sampleDecode "a" ++ "/" ++ toString runPending.runId ∧
    (jobFromTaskD sampleDecode "a" taskNumSym runPending).job_symbol = toString (3 : Int) ∧
    ("a" : String) = "a" ∧ runPending.runId = runPending.runId := by
  have h := jobFromTask_guid_unique_spec sampleDecode "a" "a" taskNumSym taskNumSym
    runPending runPending (jobFromTaskD sampleDecode "a" taskNumSym runPending)
    (jobFromTaskD sampleDecode "a" taskNumSym runPending) rfl rfl
  exact ⟨h.1, h.2.1 3 (by decide), h.2.2 (by decide) (by decide) (fun _ => rfl) rfl⟩

/-! ## C10: schema defaults for group name, group symbol and tier -/

lemma mergeTreeherderDefaults_groupName (task : Task) (run : Run) (th : THConfig) :
    (mergeTreeherderDefaults task run th).groupName = th.groupName := rfl

lemma mergeTreeherderDefaults_groupSymbol (task : Task) (run : Run) (th : THConfig) :
    (mergeTreeherderDefaults task run th).groupSymbol = th.groupSymbol := rfl

lemma mergeTreeherderDefaults_tier (task : Task) (run : Run) (th : THConfig) :
    (mergeTreeherderDefaults task run th).tier = th.tier := rfl

lemma coerceSymbol_groupName (c : THConfig) :
    (coerceSymbol c).groupName = c.groupName := by
  unfold coerceSymbol; split <;> rfl

lemma coerceSymbol_groupSymbol (c : THConfig) :
    (coerceSymbol c).groupSymbol = c.groupSymbol := by
  unfold coerceSymbol; split <;> rfl

lemma applyCollectionDefault_groupName (c : THConfig) :
    (applyCollectionDefault c).groupName = c.groupName := by
  unfold applyCollectionDefault; split <;> rfl

lemma applyCollectionDefault_groupSymbol (c : THConfig) :
    (applyCollectionDefault c).groupSymbol = c.groupSymbol := by
  unfold applyCollectionDefault; split <;> rfl

/-- C10 (amended): every successful normalization carries a non-empty group
name and group symbol, with the schema defaults `unknown` and `?` when the
task omitted them, and carries the default tier `1` when the task omitted
the tier; but the record omits the tier exactly when the task explicitly
supplied the (falsy) tier `0`. -/
theorem jobFromTask_defaults_amended (decode : String → String) (taskId : String)
    (task : Task) (run : Run) (j : Job)
    (h : jobFromTask decode taskId task run = Except.ok j) :
    (∃ g, j.group_name = some g ∧ g ≠ "") ∧
    (∃ g, j.group_symbol = some g ∧ g ≠ "") ∧
    ((treeherderOf task).groupName = none → j.group_name = some "unknown") ∧
    ((treeherderOf task).groupSymbol = none → j.group_symbol = some "?") ∧
    ((treeherderOf task).tier = none → j.tier = some 1) ∧
    (j.tier = none ↔ (treeherderOf task).tier = some 0) := by
  obtain ⟨config, hv, rfl⟩ := (jobFromTask_ok_iff decode taskId task run j).1 h
  obtain ⟨-, hgn, hgs, htier⟩ := validateTH_ok_parts _ _ hv
  rw [coerceSymbol_groupName, applyCollectionDefault_groupName,
    mergeTreeherderDefaults_groupName] at hgn
  rw [coerceSymbol_groupSymbol, applyCollectionDefault_groupSymbol,
    mergeTreeherderDefaults_groupSymbol] at hgs
  rw [coerceSymbol_tier, applyCollectionDefault_tier, mergeTreeherderDefaults_tier] at htier
  have hgn' : config.groupName ≠ "" ∧
      ((treeherderOf task).groupName = none → config.groupName = "unknown") := by
    cases hg : (treeherderOf task).groupName with
    | none =>
      rw [hg] at hgn
      simp only [validStrDefault] at hgn
      injection hgn with hu
      exact ⟨by rw [← hu]; decide, fun _ => hu.symm⟩
    | some s =>
      rw [hg] at hgn
      simp only [validStrDefault] at hgn
      split at hgn
      · cases hgn
      · injection hgn with hs2
        exact ⟨by rw [← hs2]; assumption, by simp⟩
  have hgs' : config.groupSymbol ≠ "" ∧
      ((treeherderOf task).groupSymbol = none → config.groupSymbol = "?") := by
    cases hg : (treeherderOf task).groupSymbol with
    | none =>
      rw [hg] at hgs
      simp only [validStrDefault] at hgs
      injection hgs with hu
      exact ⟨by rw [← hu]; decide, fun _ => hu.symm⟩
    | some s =>
      rw [hg] at hgs
      simp only [validStrDefault] at hgs
      split at hgs
      · cases hgs
      · injection hgs with hs2
        exact ⟨by rw [← hs2]; assumption, by simp⟩
  refine ⟨⟨config.groupName, ?_, hgn'.1⟩, ⟨config.groupSymbol, ?_, hgs'.1⟩, ?_, ?_, ?_, ?_⟩
  · simp [mkJobRecord, hgn'.1]
  · simp [mkJobRecord, hgs'.1]
  · intro hg
    simp [mkJobRecord, hgn'.2 hg, hgn'.1]
  · intro hg
    simp [mkJobRecord, hgs'.2 hg, hgs'.1]
  · intro hg
    rw [hg] at htier
    simp [mkJobRecord, htier]
  · cases hg : (treeherderOf task).tier with
    | none =>
      rw [hg] at htier
      simp [mkJobRecord, htier]
    | some t =>
      rw [hg] at htier
      simp only [mkJobRecord, htier, Option.getD_some]
      constructor
      · intro hnone
        split at hnone
        · simp_all
        · cases hnone
      · intro hsome
        injection hsome with ht
        simp [ht]

/-- Witness for the amended C10 at a task that omits all three fields. -/
theorem jobFromTask_defaults_amended_witness :
    (jobFromTaskD idDecode "tid" taskValid runPending).group_name = some "unknown" ∧
    (jobFromTaskD idDecode "tid" taskValid runPending).group_symbol = some "?" ∧
    (jobFromTaskD idDecode "tid" taskValid runPending).tier = some 1 := by
  have h := jobFromTask_defaults_amended idDecode "tid" taskValid runPending
    (jobFromTaskD idDecode "tid" taskValid runPending) rfl
  exact ⟨h.2.2.1 (by decide), h.2.2.2.1 (by decide), h.2.2.2.2.1 (by decide)⟩

/-- A valid treeherder configuration that explicitly supplies `tier: 0`. -/
def thTierZero : THConfig :=
  { sampleTHStr with tier := some 0 }

/-- A valid task that explicitly supplies `tier: 0`. -/
def taskTierZero : Task :=
  { taskValid with extra := some { treeherder := some thTierZero } }

/-- Counterexample to C10 as stated: a task supplying the (falsy) tier `0`
normalizes successfully, yet the resulting record carries no `tier` field at
all, because the output guard `if (config.tier)` drops it. -/
theorem jobFromTask_tier_zero_counterexample :
    jobFromTask idDecode "tid" taskTierZero runPending =
      Except.ok (jobFromTaskD idDecode "tid" taskTierZero runPending) ∧
    (jobFromTaskD idDecode "tid" taskTierZero runPending).tier = none :=
  ⟨rfl, rfl⟩

/-! ## Batching-engine infrastructure lemmas -/

lemma lookupPending_some {s : BatchState} {p : String} {pend : PendingState}
    (h : lookupPending s p = some pend) :
    s.pendingPushes.find? (fun e => e.1 = p) = some (p, pend) := by
  unfold lookupPending at h
  cases hf : s.pendingPushes.find? (fun e => e.1 = p) with
  | none => rw [hf] at h; cases h
  | some x =>
    rw [hf] at h
    have hpred := List.find?_some hf
    cases x with
    | mk a b =>
      simp at hpred h
      rw [hpred, h]

lemma mem_keys_of_lookupPending {s : BatchState} {p : String} {pend : PendingState}
    (h : lookupPending s p = some pend) : p ∈ s.pendingPushes.map Prod.fst := by
  have := List.mem_of_find?_eq_some (lookupPending_some h)
  exact List.mem_map.2 ⟨(p, pend), this, rfl⟩

lemma promise_lt_of_lookupPending {s : BatchState} {p : String} {pend : PendingState}
    (hwf : BatchWF s) (h : lookupPending s p = some pend) :
    pend.promise < s.nextHandle :=
  hwf.2 (p, pend) (List.mem_of_find?_eq_some (lookupPending_some h))

lemma find?_updatePending_self (p : String) (v : PendingState) :
    ∀ (l : List (String × PendingState)) (x : String × PendingState),
      l.find? (fun e => e.1 = p) = some x →
      (updatePending l p v).find? (fun e => e.1 = p) = some (p, v) := by
  intro l
  induction l with
  | nil => intro x h; cases h
  | cons e es ih =>
    intro x h
    by_cases hp : e.1 = p
    · have hstep : updatePending (e :: es) p v = (p, v) :: updatePending es p v := by
        simp [updatePending, hp]
      rw [hstep, List.find?_cons_of_pos]
      simp
    · have hstep : updatePending (e :: es) p v = e :: updatePending es p v := by
        simp [updatePending, hp]
      rw [List.find?_cons_of_neg _ (by simp [hp])] at h
      rw [hstep, List.find?_cons_of_neg _ (by simp [hp])]
      exact ih x h

lemma find?_updatePending_other (p : String) (v : PendingState) (q : String) (hne : q ≠ p) :
    ∀ (l : List (String × PendingState)),
      (updatePending l p v).find? (fun e => e.1 = q) = l.find? (fun e => e.1 = q) := by
  intro l
  induction l with
  | nil => rfl
  | cons e es ih =>
    by_cases hp : e.1 = p
    · have hstep : updatePending (e :: es) p v = (p, v) :: updatePending es p v := by
        simp [updatePending, hp]
      rw [hstep, List.find?_cons_of_neg _ (by simp [hne.symm]),
        List.find?_cons_of_neg _ (by simp [hp, hne.symm])]
      exact ih
    · have hstep : updatePending (e :: es) p v = e :: updatePending es p v := by
        simp [updatePending, hp]
      rw [hstep]
      by_cases he : e.1 = q
      · rw [List.find?_cons_of_pos _ (by simp [he]), List.find?_cons_of_pos _ (by simp [he])]
      · rw [List.find?_cons_of_neg _ (by simp [he]), List.find?_cons_of_neg _ (by simp [he])]
        exact ih

lemma updatePending_keys (p : String) (v : PendingState) :
    ∀ (l : List (String × PendingState)),
      (updatePending l p v).map Prod.fst = l.map Prod.fst := by
  intro l
  induction l with
  | nil => rfl
  | cons e es ih =>
    by_cases hp : e.1 = p <;> simp [updatePending, hp] <;>
      simpa [updatePending] using ih

lemma Handler.tryPushStart_eq {s : BatchState} {p : String} {pend : PendingState}
    (h : lookupPending s p = some pend) :
    Handler.tryPushStart s p =
      ({ pendingPushes := updatePending s.pendingPushes p
           { promise := s.nextHandle, pushes := [], active := true },
         nextHandle := s.nextHandle + 1 },
       some { project := p, pushes := pend.pushes, promise := pend.promise }) := by
  unfold Handler.tryPushStart
  rw [h]

lemma lookupPending_after_update {s : BatchState} {p : String} {x : String × PendingState}
    (h : s.pendingPushes.find? (fun e => e.1 = p) = some x) (v : PendingState) (n : Nat) :
    lookupPending { pendingPushes := updatePending s.pendingPushes p v, nextHandle := n } p =
      some v := by
  unfold lookupPending
  rw [find?_updatePending_self p v s.pendingPushes x h]
  rfl

lemma Handler.addPush_existing {s : BatchState} {pend : PendingState} {push : PushRec}
    (h : lookupPending s push.project = some pend) :
    Handler.addPush s push =
      ({ pendingPushes := updatePending s.pendingPushes push.project
           { pend with pushes := pend.pushes ++ [push] },
         nextHandle := s.nextHandle }, pend.promise) := by
  unfold Handler.addPush
  rw [h]

lemma Handler.addPushes_existing :
    ∀ (ps : List PushRec) (s : BatchState) (p : String) (pend : PendingState),
      lookupPending s p = some pend → (∀ r ∈ ps, r.project = p) →
      lookupPending (Handler.addPushes s ps).1 p =
        some { pend with pushes := pend.pushes ++ ps } ∧
      (Handler.addPushes s ps).1.nextHandle = s.nextHandle ∧
      (∀ h ∈ (Handler.addPushes s ps).2, h = pend.promise) := by
  intro ps
  induction ps with
  | nil =>
    intro s p pend hlook _
    refine ⟨?_, rfl, by simp [Handler.addPushes]⟩
    simpa [Handler.addPushes] using hlook
  | cons push rest ih =>
    intro s p pend hlook hproj
    have hp : push.project = p := hproj push (List.mem_cons_self push rest)
    have hlook' : lookupPending s push.project = some pend := by rw [hp]; exact hlook
    have hadd := Handler.addPush_existing hlook'
    have hfound := lookupPending_some hlook
    have hlook2 : lookupPending (Handler.addPush s push).1 p =
        some { pend with pushes := pend.pushes ++ [push] } := by
      rw [hadd, hp]
      exact lookupPending_after_update hfound _ _
    have ihr := ih (Handler.addPush s push).1 p { pend with pushes := pend.pushes ++ [push] }
      hlook2 (fun r hr => hproj r (List.mem_cons_of_mem push hr))
    have hnext : (Handler.addPush s push).1.nextHandle = s.nextHandle := by
      rw [hadd]
    refine ⟨?_, ?_, ?_⟩
    · have := ihr.1
      simpa [Handler.addPushes, List.append_assoc] using this
    · have := ihr.2.1
      simp only [Handler.addPushes]
      rw [this, hnext]
    · intro h hmem
      simp only [Handler.addPushes, List.mem_cons] at hmem
      rcases hmem with rfl | hmem
      · rw [hadd]
      · exact ihr.2.2 h hmem

/-! ## C1: batching atomicity -/

/-- C1: starting from any well-formed state, contributions `ps` made before a
flush begins are exactly what the flush detaches (after the records already
pending), in contribution order and under the pre-flush completion handle,
while contributions `qs` made while the flush is in progress land in the new
pending list under the new completion handle, which differs from the
detached one; no record is in both lists. -/
theorem batching_atomicity (s₀ : BatchState) (p : String) (pend₀ : PendingState)
    (ps qs : List PushRec) (hwf : BatchWF s₀)
    (hlook : lookupPending s₀ p = some pend₀)
    (hps : ∀ r ∈ ps, r.project = p) (hqs : ∀ r ∈ qs, r.project = p) :
    (Handler.tryPushStart (Handler.addPushes s₀ ps).1 p).2 =
      some { project := p, pushes := pend₀.pushes ++ ps, promise := pend₀.promise } ∧
    (∀ h ∈ (Handler.addPushes s₀ ps).2, h = pend₀.promise) ∧
    lookupPending (Handler.addPushes
        (Handler.tryPushStart (Handler.addPushes s₀ ps).1 p).1 qs).1 p =
      some { promise := (Handler.addPushes s₀ ps).1.nextHandle, pushes := qs,
             active := true } ∧
    (∀ k ∈ (Handler.addPushes
        (Handler.tryPushStart (Handler.addPushes s₀ ps).1 p).1 qs).2,
      k = (Handler.addPushes s₀ ps).1.nextHandle) ∧
    pend₀.promise ≠ (Handler.addPushes s₀ ps).1.nextHandle := by
  obtain ⟨hlook1, hnext1, hhs⟩ := Handler.addPushes_existing ps s₀ p pend₀ hlook hps
  have hstart := Handler.tryPushStart_eq hlook1
  have hfound1 := lookupPending_some hlook1
  have hlook2 : lookupPending (Handler.tryPushStart (Handler.addPushes s₀ ps).1 p).1 p =
      some { promise := (Handler.addPushes s₀ ps).1.nextHandle, pushes := [],
             active := true } := by
    rw [hstart]
    exact lookupPending_after_update hfound1 _ _
  obtain ⟨hlook3, hnext3, hks⟩ := Handler.addPushes_existing qs
    (Handler.tryPushStart (Handler.addPushes s₀ ps).1 p).1 p
    { promise := (Handler.addPushes s₀ ps).1.nextHandle, pushes := [], active := true }
    hlook2 hqs
  have hlt : pend₀.promise < s₀.nextHandle := promise_lt_of_lookupPending hwf hlook
  refine ⟨?_, hhs, ?_, ?_, ?_⟩
  · rw [hstart]
  · simpa using hlook3
  · simpa using hks
  · rw [hnext1]
    omega

/-- A concrete job record for batching witnesses. -/
def sampleJob : Job := jobFromTaskD idDecode "tid" taskValid runPending

/-- First concrete push. -/
def pushA : PushRec :=
  { revision_hash := none, revision := some "abc123", project := "try", job := sampleJob }

/-- Second concrete push. -/
def pushB : PushRec :=
  { revision_hash := none, revision := some "abc124", project := "try", job := sampleJob }

/-- Third concrete push. -/
def pushC : PushRec :=
  { revision_hash := none, revision := some "abc125", project := "try", job := sampleJob }

/-- A batching state with one pending push for project `try`. -/
def batchS0 : BatchState := (Handler.addPush emptyBatchState pushA).1

/-- Witness for C1: one pre-tick and one mid-flush contribution to `try`. -/
theorem batching_atomicity_witness :
    (Handler.tryPushStart (Handler.addPushes batchS0 [pushB]).1 "try").2 =
      some { project := "try", pushes := [pushA] ++ [pushB], promise := 0 } ∧
    (∀ h ∈ (Handler.addPushes batchS0 [pushB]).2, h = 0) ∧
    lookupPending (Handler.addPushes
        (Handler.tryPushStart (Handler.addPushes batchS0 [pushB]).1 "try").1 [pushC]).1
        "try" =
      some { promise := (Handler.addPushes batchS0 [pushB]).1.nextHandle,
             pushes := [pushC], active := true } ∧
    (∀ k ∈ (Handler.addPushes
        (Handler.tryPushStart (Handler.addPushes batchS0 [pushB]).1 "try").1 [pushC]).2,
      k = (Handler.addPushes batchS0 [pushB]).1.nextHandle) ∧
    (0 : Nat) ≠ (Handler.addPushes batchS0 [pushB]).1.nextHandle :=
  batching_atomicity batchS0 "try" { promise := 0, pushes := [pushA], active := false }
    [pushB] [pushC] ⟨by decide, by decide⟩ rfl (by decide) (by decide)

/-! ## C2: the tick flushes exactly the eligible projects -/

lemma checkStep_lookup_other (acc : BatchState × List FlushOp) (q r : String)
    (hne : r ≠ q) :
    lookupPending (Handler.checkStep acc q).1 r = lookupPending acc.1 r := by
  unfold Handler.checkStep
  cases hl : lookupPending acc.1 q with
  | none => rfl
  | some pend =>
    dsimp only
    by_cases hc : pend.active = false ∧ pend.pushes.length ≠ 0
    · rw [if_pos hc, Handler.tryPushStart_eq hl]
      unfold lookupPending
      exact congrArg (Option.map Prod.snd) (find?_updatePending_other q _ r hne _)
    · rw [if_neg hc]

lemma checkStep_keys (acc : BatchState × List FlushOp) (q : String) :
    (Handler.checkStep acc q).1.pendingPushes.map Prod.fst =
      acc.1.pendingPushes.map Prod.fst := by
  unfold Handler.checkStep
  cases hl : lookupPending acc.1 q with
  | none => rfl
  | some pend =>
    dsimp only
    by_cases hc : pend.active = false ∧ pend.pushes.length ≠ 0
    · rw [if_pos hc, Handler.tryPushStart_eq hl]
      exact updatePending_keys q _ acc.1.pendingPushes
    · rw [if_neg hc]

lemma checkStep_ops (acc : BatchState × List FlushOp) (q : String) :
    ∃ newOps, (Handler.checkStep acc q).2 = acc.2 ++ newOps ∧
      ∀ op ∈ newOps, op.project = q := by
  unfold Handler.checkStep
  cases hl : lookupPending acc.1 q with
  | none => exact ⟨[], by simp, by simp⟩
  | some pend =>
    dsimp only
    by_cases hc : pend.active = false ∧ pend.pushes.length ≠ 0
    · refine ⟨[{ project := q, pushes := pend.pushes, promise := pend.promise }], ?_, ?_⟩
      · rw [if_pos hc, Handler.tryPushStart_eq hl]
        rfl
      · simp
    · exact ⟨[], by rw [if_neg hc]; simp, by simp⟩

lemma foldl_checkStep_keys :
    ∀ (K : List String) (acc : BatchState × List FlushOp),
      (K.foldl Handler.checkStep acc).1.pendingPushes.map Prod.fst =
        acc.1.pendingPushes.map Prod.fst := by
  intro K
  induction K with
  | nil => intro acc; rfl
  | cons q K' ih =>
    intro acc
    rw [List.foldl_cons, ih, checkStep_keys]

lemma foldl_checkStep_not_mem :
    ∀ (K : List String) (acc : BatchState × List FlushOp) (p : String), p ∉ K →
      lookupPending (K.foldl Handler.checkStep acc).1 p = lookupPending acc.1 p ∧
      ∃ newOps, (K.foldl Handler.checkStep acc).2 = acc.2 ++ newOps ∧
        ∀ op ∈ newOps, op.project ≠ p := by
  intro K
  induction K with
  | nil => intro acc p _; exact ⟨rfl, [], by simp, by simp⟩
  | cons q K' ih =>
    intro acc p hp
    have hpq : p ≠ q := fun h => hp (h ▸ List.mem_cons_self q K')
    have hpK : p ∉ K' := fun h => hp (List.mem_cons_of_mem q h)
    have h1 := checkStep_lookup_other acc q p hpq
    obtain ⟨new₁, hops1, hproj1⟩ := checkStep_ops acc q
    obtain ⟨h2, new₂, hops2, hproj2⟩ := ih (Handler.checkStep acc q) p hpK
    refine ⟨by rw [List.foldl_cons, h2, h1], new₁ ++ new₂, ?_, ?_⟩
    · rw [List.foldl_cons, hops2, hops1, List.append_assoc]
    · intro op hop
      rcases List.mem_append.1 hop with h | h
      · rw [hproj1 op h]; exact Ne.symm hpq
      · exact hproj2 op h

lemma foldl_checkStep_at :
    ∀ (K : List String) (acc : BatchState × List FlushOp) (p : String)
      (pend : PendingState), K.Nodup → p ∈ K → lookupPending acc.1 p = some pend →
      ((pend.active = true ∨ pend.pushes = []) →
        lookupPending (K.foldl Handler.checkStep acc).1 p = some pend ∧
        ∃ newOps, (K.foldl Handler.checkStep acc).2 = acc.2 ++ newOps ∧
          ∀ op ∈ newOps, op.project ≠ p) ∧
      (pend.active = false → pend.pushes ≠ [] →
        (∃ h, lookupPending (K.foldl Handler.checkStep acc).1 p =
          some { promise := h, pushes := [], active := true }) ∧
        ∃ newOps, (K.foldl Handler.checkStep acc).2 = acc.2 ++ newOps ∧
          newOps.filter (fun op => op.project = p) =
            [{ project := p, pushes := pend.pushes, promise := pend.promise }]) := by
  intro K
  induction K with
  | nil => intro acc p pend _ hp _; cases hp
  | cons q K' ih =>
    intro acc p pend hnd hp hlook
    have hqK : q ∉ K' := (List.nodup_cons.1 hnd).1
    have hndK : K'.Nodup := (List.nodup_cons.1 hnd).2
    by_cases hpq : p = q
    · subst hpq
      constructor
      · intro hskip
        have hcond : ¬ (pend.active = false ∧ pend.pushes.length ≠ 0) := by
          rcases hskip with h | h
          · intro hc; rw [h] at hc; exact absurd hc.1 (by simp)
          · intro hc; rw [h] at hc; exact hc.2 rfl
        have hstep : Handler.checkStep acc p = acc := by
          unfold Handler.checkStep; rw [hlook]; dsimp only; rw [if_neg hcond]
        rw [List.foldl_cons, hstep]
        obtain ⟨ha, new, hops, hproj⟩ := foldl_checkStep_not_mem K' acc p hqK
        exact ⟨by rw [ha, hlook], new, hops, hproj⟩
      · intro hact hne
        have hcond : pend.active = false ∧ pend.pushes.length ≠ 0 :=
          ⟨hact, fun h => hne (List.length_eq_zero.1 h)⟩
        have hstart := Handler.tryPushStart_eq hlook
        have hstep : Handler.checkStep acc p =
            ((Handler.tryPushStart acc.1 p).1,
              acc.2 ++ [{ project := p, pushes := pend.pushes,
                          promise := pend.promise }]) := by
          unfold Handler.checkStep
          rw [hlook]
          dsimp only
          rw [if_pos hcond, hstart]
          rfl
        have hlookNew : lookupPending (Handler.tryPushStart acc.1 p).1 p =
            some { promise := acc.1.nextHandle, pushes := [], active := true } := by
          rw [hstart]
          exact lookupPending_after_update (lookupPending_some hlook) _ _
        rw [List.foldl_cons, hstep]
        obtain ⟨ha, new, hops, hproj⟩ := foldl_checkStep_not_mem K'
          ((Handler.tryPushStart acc.1 p).1,
            acc.2 ++ [{ project := p, pushes := pend.pushes, promise := pend.promise }])
          p hqK
        refine ⟨⟨acc.1.nextHandle, by rw [ha]; exact hlookNew⟩,
          { project := p, pushes := pend.pushes, promise := pend.promise } :: new, ?_, ?_⟩
        · rw [hops]
          simp
        · rw [List.filter_cons]
          have h2 : new.filter (fun op => op.project = p) = [] :=
            List.filter_eq_nil_iff.2 (fun a ha => by simp [hproj a ha])
          simp [h2]
    · have hpK : p ∈ K' := by
        rcases List.mem_cons.1 hp with h | h
        · exact absurd h hpq
        · exact h
      have hpre := checkStep_lookup_other acc q p hpq
      obtain ⟨new₁, hops1, hproj1⟩ := checkStep_ops acc q
      have hlook' : lookupPending (Handler.checkStep acc q).1 p = some pend := by
        rw [hpre]; exact hlook
      have ihr := ih (Handler.checkStep acc q) p pend hndK hpK hlook'
      constructor
      · intro hskip
        obtain ⟨hl2, new₂, hops2, hproj2⟩ := ihr.1 hskip
        refine ⟨by rw [List.foldl_cons]; exact hl2, new₁ ++ new₂, ?_, ?_⟩
        · rw [List.foldl_cons, hops2, hops1, List.append_assoc]
        · intro op hop
          rcases List.mem_append.1 hop with h | h
          · rw [hproj1 op h]; exact Ne.symm hpq
          · exact hproj2 op h
      · intro hact hne2
        obtain ⟨hex, new₂, hops2, hfil⟩ := ihr.2 hact hne2
        refine ⟨by rw [List.foldl_cons]; exact hex, new₁ ++ new₂, ?_, ?_⟩
        · rw [List.foldl_cons, hops2, hops1, List.append_assoc]
        · rw [List.filter_append]
          have h1 : new₁.filter (fun op => op.project = p) = [] :=
            List.filter_eq_nil_iff.2 (fun a ha => by simp [hproj1 a ha, Ne.symm hpq])
          rw [h1, hfil]
          rfl

/-- C2: a tick skips every project that is in-flight or has an empty pending
list (leaving its state untouched and starting no flush for it), starts
exactly one flush for every project with a non-empty pending list and no
flush in flight (detaching exactly its pending pushes and handle and marking
it in-flight), and a second tick run immediately after never flushes the
project again, so at most one flush is in flight per project. -/
theorem check_spec (s : BatchState) (p : String) (pend : PendingState)
    (hwf : BatchWF s) (hlook : lookupPending s p = some pend) :
    ((pend.active = true ∨ pend.pushes = []) →
      lookupPending (Handler.check s).1 p = some pend ∧
      ∀ op ∈ (Handler.check s).2, op.project ≠ p) ∧
    (pend.active = false → pend.pushes ≠ [] →
      (∃ h, lookupPending (Handler.check s).1 p =
        some { promise := h, pushes := [], active := true }) ∧
      (Handler.check s).2.filter (fun op => op.project = p) =
        [{ project := p, pushes := pend.pushes, promise := pend.promise }]) ∧
    (∀ op ∈ (Handler.check (Handler.check s).1).2, op.project ≠ p) := by
  have hmem : p ∈ s.pendingPushes.map Prod.fst := mem_keys_of_lookupPending hlook
  have hmain := foldl_checkStep_at (s.pendingPushes.map Prod.fst) (s, []) p pend
    hwf.1 hmem hlook
  have hkeys : (Handler.check s).1.pendingPushes.map Prod.fst =
      s.pendingPushes.map Prod.fst := foldl_checkStep_keys _ _
  refine ⟨?_, ?_, ?_⟩
  · intro hskip
    obtain ⟨hl, new, hops, hproj⟩ := hmain.1 hskip
    refine ⟨hl, ?_⟩
    intro op hop
    have hop2 : op ∈ (List.foldl Handler.checkStep (s, [])
        (List.map Prod.fst s.pendingPushes)).2 := hop
    rw [hops] at hop2
    exact hproj op (by simpa using hop2)
  · intro hact hne
    obtain ⟨hex, new, hops, hfil⟩ := hmain.2 hact hne
    refine ⟨hex, ?_⟩
    show (List.foldl Handler.checkStep (s, [])
      (List.map Prod.fst s.pendingPushes)).2.filter (fun op => op.project = p) = _
    rw [hops]
    simpa using hfil
  · -- after the first tick the entry for `p` is in-flight or empty, so the
    -- second tick always skips it
    have hsecond : ∀ pend', lookupPending (Handler.check s).1 p = some pend' →
        (pend'.active = true ∨ pend'.pushes = []) →
        ∀ op ∈ (Handler.check (Handler.check s).1).2, op.project ≠ p := by
      intro pend' hl' hskip'
      have hmem' : p ∈ (Handler.check s).1.pendingPushes.map Prod.fst := by
        rw [hkeys]; exact hmem
      have h2 := foldl_checkStep_at ((Handler.check s).1.pendingPushes.map Prod.fst)
        ((Handler.check s).1, []) p pend' (by rw [hkeys]; exact hwf.1) hmem' hl'
      obtain ⟨-, new, hops, hproj⟩ := h2.1 hskip'
      intro op hop
      have hop2 : op ∈ (List.foldl Handler.checkStep ((Handler.check s).1, [])
          (List.map Prod.fst (Handler.check s).1.pendingPushes)).2 := hop
      rw [hops] at hop2
      exact hproj op (by simpa using hop2)
    by_cases hact : pend.active = true
    · obtain ⟨hl, -⟩ := hmain.1 (Or.inl hact)
      exact hsecond pend hl (Or.inl hact)
    · by_cases hne : pend.pushes = []
      · obtain ⟨hl, -⟩ := hmain.1 (Or.inr hne)
        exact hsecond pend hl (Or.inr hne)
      · obtain ⟨⟨h, hl⟩, -⟩ := hmain.2 (by simpa using hact) hne
        exact hsecond _ hl (Or.inl rfl)

/-- Witness for C2 at a state with one eligible project: the tick detaches the
pending push under its handle, marks the project in-flight, and a second tick
flushes nothing for it. -/
theorem check_spec_witness :
    (∃ h, lookupPending (Handler.check batchS0).1 "try" =
      some { promise := h, pushes := [], active := true }) ∧
    (Handler.check batchS0).2.filter (fun op => op.project = "try") =
      [{ project := "try", pushes := [pushA], promise := 0 }] ∧
    (∀ op ∈ (Handler.check (Handler.check batchS0).1).2, op.project ≠ "try") := by
  have h := check_spec batchS0 "try" { promise := 0, pushes := [pushA], active := false }
    ⟨by decide, by decide⟩ rfl
  exact ⟨(h.2.1 rfl (by decide)).1, (h.2.1 rfl (by decide)).2, h.2.2⟩

/-! ## C7: flush failure rejects the detached handle and is terminal for the
batch -/

lemma Handler.clearActive_eq {s : BatchState} {p : String} {pend : PendingState}
    (h : lookupPending s p = some pend) :
    Handler.clearActive s p =
      { pendingPushes := updatePending s.pendingPushes p { pend with active := false },
        nextHandle := s.nextHandle } := by
  unfold Handler.clearActive
  rw [h]

/-- C7: when the flush detached at a tick fails, the detached completion
handle is rejected with the error, the in-flight flag is cleared, and the
pending list afterwards holds exactly the contributions made during the
flush — the detached records are not re-queued; a further flush then
detaches exactly those new contributions, so the project proceeds
normally. -/
theorem flush_failure_spec (s₀ : BatchState) (p : String) (pend₀ : PendingState)
    (qs : List PushRec) (e : Nat)
    (hlook : lookupPending s₀ p = some pend₀) (hqs : ∀ r ∈ qs, r.project = p) :
    (Handler.tryPushStart s₀ p).2 =
      some { project := p, pushes := pend₀.pushes, promise := pend₀.promise } ∧
    (Handler.tryPushFinish (Handler.addPushes (Handler.tryPushStart s₀ p).1 qs).1
        { project := p, pushes := pend₀.pushes, promise := pend₀.promise }
        (Except.error e)).2 = (pend₀.promise, HandleOutcome.rejected e) ∧
    lookupPending (Handler.tryPushFinish
        (Handler.addPushes (Handler.tryPushStart s₀ p).1 qs).1
        { project := p, pushes := pend₀.pushes, promise := pend₀.promise }
        (Except.error e)).1 p =
      some { promise := s₀.nextHandle, pushes := qs, active := false } ∧
    (Handler.tryPushStart (Handler.tryPushFinish
        (Handler.addPushes (Handler.tryPushStart s₀ p).1 qs).1
        { project := p, pushes := pend₀.pushes, promise := pend₀.promise }
        (Except.error e)).1 p).2 =
      some { project := p, pushes := qs, promise := s₀.nextHandle } := by
  have hstart := Handler.tryPushStart_eq hlook
  have hlook1 : lookupPending (Handler.tryPushStart s₀ p).1 p =
      some { promise := s₀.nextHandle, pushes := [], active := true } := by
    rw [hstart]
    exact lookupPending_after_update (lookupPending_some hlook) _ _
  obtain ⟨hlook2, hnext2, -⟩ := Handler.addPushes_existing qs
    (Handler.tryPushStart s₀ p).1 p
    { promise := s₀.nextHandle, pushes := [], active := true } hlook1 hqs
  simp only [List.nil_append] at hlook2
  have hfin : Handler.tryPushFinish
      (Handler.addPushes (Handler.tryPushStart s₀ p).1 qs).1
      { project := p, pushes := pend₀.pushes, promise := pend₀.promise }
      (Except.error e) =
      (Handler.clearActive (Handler.addPushes (Handler.tryPushStart s₀ p).1 qs).1 p,
        (pend₀.promise, HandleOutcome.rejected e)) := rfl
  have hclear := Handler.clearActive_eq hlook2
  refine ⟨by rw [hstart], by rw [hfin], ?_, ?_⟩
  · rw [hfin, hclear]
    exact lookupPending_after_update (lookupPending_some hlook2) _ _
  · rw [hfin, hclear]
    have hlook4 : lookupPending
        { pendingPushes := updatePending
            (Handler.addPushes (Handler.tryPushStart s₀ p).1 qs).1.pendingPushes p
            { promise := s₀.nextHandle, pushes := qs, active := false },
          nextHandle :=
            (Handler.addPushes (Handler.tryPushStart s₀ p).1 qs).1.nextHandle } p =
        some { promise := s₀.nextHandle, pushes := qs, active := false } :=
      lookupPending_after_update (lookupPending_some hlook2) _ _
    rw [Handler.tryPushStart_eq hlook4]

/-- Witness for C7: a failing flush for `try` rejects handle `0`, clears the
in-flight flag, keeps only the mid-flight contribution, and the next flush
detaches exactly that contribution. -/
theorem flush_failure_spec_witness :
    (Handler.tryPushStart batchS0 "try").2 =
      some { project := "try", pushes := [pushA], promise := 0 } ∧
    (Handler.tryPushFinish (Handler.addPushes (Handler.tryPushStart batchS0 "try").1
        [pushC]).1 { project := "try", pushes := [pushA], promise := 0 }
        (Except.error 7)).2 = (0, HandleOutcome.rejected 7) ∧
    lookupPending (Handler.tryPushFinish
        (Handler.addPushes (Handler.tryPushStart batchS0 "try").1 [pushC]).1
        { project := "try", pushes := [pushA], promise := 0 }
        (Except.error 7)).1 "try" =
      some { promise := batchS0.nextHandle, pushes := [pushC], active := false } ∧
    (Handler.tryPushStart (Handler.tryPushFinish
        (Handler.addPushes (Handler.tryPushStart batchS0 "try").1 [pushC]).1
        { project := "try", pushes := [pushA], promise := 0 }
        (Except.error 7)).1 "try").2 =
      some { project := "try", pushes := [pushC], promise := batchS0.nextHandle } :=
  flush_failure_spec batchS0 "try" { promise := 0, pushes := [pushA], active := false }
    [pushC] 7 rfl (by decide)

/-! ## C9: dropping events without route, project or revision information -/

/-- C9 (amended): for a recognized exchange, none of the route-failure paths
is a silent drop: a message with no route matching the configured route root
raises an explicit error; and when a route matches but no project can be
determined, or neither a revision (from the route or the task override) nor a
revision hash is available, the handler raises a `ReferenceError` — the
intended diagnostic reads the undeclared variable `taskId` — instead of
logging and returning; in every such case no record is contributed. -/
theorem handleTaskEvent_route_amended (decode : String → String)
    (inspect : String → String → Except Unit SchedTaskInfo)
    (parseRoute : String → ParsedRoute) (fetchTask : String → Task)
    (routeRoot : String) (message : Message) (kind : EventKind)
    (hkind : EVENT_MAP message.exchange = some kind) :
    (message.routes.find? (fun route => firstSegment route = routeRoot) = none →
      Handler.handleTaskEvent decode inspect parseRoute fetchTask routeRoot message =
        EventOutcome.raised ("Unexpected message (no route) on " ++ message.exchange)) ∧
    (∀ route,
      message.routes.find? (fun r => firstSegment r = routeRoot) = some route →
      truthyStr (parseRoute route).project = false →
      Handler.handleTaskEvent decode inspect parseRoute fetchTask routeRoot message =
        EventOutcome.raised "ReferenceError: taskId is not defined") ∧
    (∀ route,
      message.routes.find? (fun r => firstSegment r = routeRoot) = some route →
      truthyStr (parseRoute route).project = true →
      truthyStr (treeherderOf (fetchTask message.payload.status.taskId)).revision = false →
      truthyStr (parseRoute route).revision = false →
      truthyStr (parseRoute route).revisionHash = false →
      Handler.handleTaskEvent decode inspect parseRoute fetchTask routeRoot message =
        EventOutcome.raised "ReferenceError: taskId is not defined") := by
  refine ⟨?_, ?_, ?_⟩
  · intro hroute
    unfold Handler.handleTaskEvent
    rw [hkind]
    dsimp only
    rw [hroute]
  · intro route hroute hp
    unfold Handler.handleTaskEvent
    rw [hkind]
    dsimp only
    rw [hroute]
    dsimp only
    rw [if_pos hp]
  · intro route hroute hp hrev h3 h4
    unfold Handler.handleTaskEvent
    rw [hkind]
    dsimp only
    rw [hroute]
    dsimp only
    simp only [hp, hrev, h3, h4]
    simp
    intro hcontra
    exact absurd (hcontra h3) (by simp [h4])

/-- A route parser that resolves everything. -/
def sampleRouteParser : String → ParsedRoute :=
  fun _ => { project := some "try", revision := some "abc123", revisionHash := none }

/-- A route parser that cannot determine the project. -/
def noProjectParser : String → ParsedRoute :=
  fun _ => { project := none, revision := some "abc123", revisionHash := none }

/-- A task fetcher always answering with the valid sample task. -/
def fetchTaskValid : String → Task := fun _ => taskValid

/-- A pending-event message whose routes all miss the configured root. -/
def msgNoRoute : Message :=
  { payload := { status := { taskId := "tid", runs := [runPending] }, runId := 0 },
    exchange := "exchange/taskcluster-queue/v1/task-pending",
    routes := ["other.try.abc"] }

/-- A pending-event message with a matching route. -/
def msgWithRoute : Message :=
  { payload := { status := { taskId := "tid", runs := [runPending] }, runId := 0 },
    exchange := "exchange/taskcluster-queue/v1/task-pending",
    routes := ["tc-treeherder.try.abc"] }

/-- Counterexample to C9 as stated: a recognized event whose routes do not
match the expected route root makes `handleTaskEvent` raise an error,
instead of dropping the event with a logged diagnostic. -/
theorem handleTaskEvent_no_route_counterexample :
    Handler.handleTaskEvent idDecode inspectTwoReruns sampleRouteParser fetchTaskValid
      "tc-treeherder" msgNoRoute =
      EventOutcome.raised
        ("Unexpected message (no route) on exchange/taskcluster-queue/v1/task-pending") := by
  decide

/-- Witness for the amended C9: a matching route without a resolvable project
makes the handler raise the `ReferenceError` from the broken diagnostic, and
no record is contributed. -/
theorem handleTaskEvent_route_amended_witness :
    Handler.handleTaskEvent idDecode inspectTwoReruns noProjectParser fetchTaskValid
      "tc-treeherder" msgWithRoute =
      EventOutcome.raised "ReferenceError: taskId is not defined" :=
  (handleTaskEvent_route_amended idDecode inspectTwoReruns noProjectParser fetchTaskValid
      "tc-treeherder" msgWithRoute EventKind.pending rfl).2.1
    "tc-treeherder.try.abc" (by decide) (by decide)

end MozillaTaskcluster
